import Mathlib

/-!
Verification of the stethopi audio pipeline.

Shallow embeddings of `src/audio/recorder.py`, `src/audio/monitor.py`,
`src/audio/segment_recorder.py`, `src/control/controller.py`,
`src/ui/sense_ui.py` and `src/config/config.py`, with theorems settling
the specification claims about segment cutting, the bounded chunk queue,
the playback callback, recorder error handling, monitor lifecycle and the
controller state machine.
-/

namespace Stethopi


/-- A raw audio byte. Python `bytes` elements are integers in 0..255; the
value range plays no role in any control flow modelled here, so bytes are
`Nat`. -/
abbrev Byte := Nat

/-! ## `src/audio/segment_recorder.py` : segment cutting -/

/-- The per-segment byte count computed in `SegmentRecorder.__init__`:
`self.segment_bytes = fs * segment_seconds * 2`. -/
def segment_bytes (fs segment_seconds : Nat) : Nat :=
  fs * segment_seconds * 2

/-- The inner `while len(self._buf) >= self.segment_bytes` loop of
`SegmentRecorder._loop`: repeatedly cut exactly `sb` bytes off the front of
the rolling buffer (`seg = bytes(self._buf[:sb]); del self._buf[:sb]`),
returning the cut segments in the order they were written and the remaining
buffer. -/
def cutAll (sb : Nat) (buf : List Byte) : List (List Byte) × List Byte :=
  if _h : 0 < sb ∧ sb ≤ buf.length then
    let rest := cutAll sb (buf.drop sb)
    (buf.take sb :: rest.1, rest.2)
  else ([], buf)
termination_by buf.length
decreasing_by
  simp only [List.length_drop]
  omega

/-- One iteration of the outer read loop of `SegmentRecorder._loop` for a
single chunk `raw`: `if raw:` skips empty chunks; otherwise
`self._buf.extend(raw)` and the cut loop runs. The state is (segments
written so far, rolling buffer). -/
def segStep (sb : Nat) (st : List (List Byte) × List Byte) (raw : List Byte) :
    List (List Byte) × List Byte :=
  if raw.isEmpty then st
  else
    let cut := cutAll sb (st.2 ++ raw)
    (st.1 ++ cut.1, cut.2)

/-- `SegmentRecorder._loop` run over a whole input stream of chunks,
starting from an empty rolling buffer: returns the segments written (in
order) and the bytes left in the rolling buffer at the end. -/
def segRun (sb : Nat) (chunks : List (List Byte)) :
    List (List Byte) × List Byte :=
  chunks.foldl (segStep sb) ([], [])

/-! ## `src/audio/monitor.py` : bounded chunk queue -/

/-- `queue.Queue(maxsize=64)` push as used in `Monitor._reader_thread`:
`put_nowait` enqueues at the tail when the queue is below capacity and
raises `queue.Full` otherwise, which the reader swallows
(`except queue.Full: pass`) — the incoming chunk is dropped and the queue
is unchanged. -/
def qpush (cap : Nat) (q : List (List Byte)) (c : List Byte) : List (List Byte) :=
  if q.length < cap then q ++ [c] else q

/-- `queue.Queue` pop as used in `Monitor._pump_thread`: `get` returns the
oldest chunk (FIFO) or, on timeout with an empty queue, nothing
(`queue.Empty`, on which the pump just continues). -/
def qpop (q : List (List Byte)) : Option (List Byte) × List (List Byte) :=
  match q with
  | [] => (none, [])
  | x :: xs => (some x, xs)

/-- A producer/consumer operation on the bounded chunk queue. -/
inductive QOp where
  | push (c : List Byte)
  | pop
deriving DecidableEq, Repr

/-- The chunks a list of operations attempts to push, in order. -/
def qPushed : List QOp → List (List Byte)
  | [] => []
  | QOp.push c :: ops => c :: qPushed ops
  | QOp.pop :: ops => qPushed ops

/-- Run a sequence of queue operations from a (queue, delivered) state,
appending each delivered (popped) chunk to the delivered list in order. -/
def qRunFrom (cap : Nat) : List QOp → List (List Byte) × List (List Byte) →
    List (List Byte) × List (List Byte)
  | [], st => st
  | QOp.push c :: ops, st => qRunFrom cap ops (qpush cap st.1 c, st.2)
  | QOp.pop :: ops, st => qRunFrom cap ops ((qpop st.1).2, st.2 ++ (qpop st.1).1.toList)

/-- Run a sequence of queue operations from the empty queue. -/
def qRun (cap : Nat) (ops : List QOp) : List (List Byte) × List (List Byte) :=
  qRunFrom cap ops ([], [])

/-! ## `src/audio/monitor.py` : playback callback -/

/-- `Monitor._audio_cb` at the byte level. `need = frames * 2`; with fewer
than `need` buffered bytes the whole output block is zeroed
(`outdata[:] = 0; return`) and the buffer is left untouched; otherwise
`chunk = self._buf[:need]; del self._buf[:need]` and the chunk is copied
to the output. Returns (output bytes, buffer after the call); the
function is total, mirroring the catch-all `except` that zero-fills. -/
def audio_cb (buf : List Byte) (frames : Nat) : List Byte × List Byte :=
  let need := frames * 2
  if buf.length < need then (List.replicate need 0, buf)
  else (buf.take need, buf.drop need)

/-! ## `src/audio/monitor.py` : lifecycle -/

/-- State of a `Monitor`, as held by `Monitor.__init__`: the stop event,
the two background thread handles (`_t_reader`, `_t_pump`), the output
stream handle, the bounded chunk queue `_q` and the playback buffer
`_buf`. A handle carries the id under which it was created; `spawned` and
`streamsOpened` count every thread ever spawned and every stream ever
opened, so that "spawns no additional thread / opens no additional
stream" is expressible. -/
structure MonitorState where
  stopFlag : Bool
  tReader : Option Nat
  tPump : Option Nat
  stream : Option Nat
  q : List (List Byte)
  buf : List Byte
  spawned : Nat
  streamsOpened : Nat
deriving DecidableEq, Repr

/-- A fresh `Monitor` (`Monitor.__init__`): stop event clear, no threads,
no stream, empty queue and empty playback buffer. -/
def Monitor.init : MonitorState :=
  ⟨false, none, none, none, [], [], 0, 0⟩

/-- `Monitor.start`: clears the stop event, then unconditionally spawns a
new reader thread and a new pump thread and opens a new output stream —
the source has no already-running guard, and the previous handles are
overwritten. -/
def Monitor.start (s : MonitorState) : MonitorState :=
  { s with stopFlag := false,
           tReader := some s.spawned,
           tPump := some (s.spawned + 1),
           spawned := s.spawned + 2,
           stream := some s.streamsOpened,
           streamsOpened := s.streamsOpened + 1 }

/-- `Monitor.stop`: sets the stop event, stops and closes the stream if
one is present (`self._stream = None`), joins both threads with timeout
1.0 and drops the handles, and clears the playback buffer `_buf`. The
chunk queue `_q` is not touched. -/
def Monitor.stop (s : MonitorState) : MonitorState :=
  { s with stopFlag := true,
           stream := none,
           tReader := none,
           tPump := none,
           buf := [] }

/-! ## `src/audio/segment_recorder.py` : lifecycle -/

/-- State of a `SegmentRecorder` (`SegmentRecorder.__init__`): stop event,
whether the worker thread handle is set and alive
(`self._t and self._t.is_alive()`), the rolling buffer, the tap handle,
and a count of every worker thread ever spawned. -/
structure SegRecState where
  stopFlag : Bool
  threadAlive : Bool
  buf : List Byte
  tapOpen : Bool
  spawned : Nat
deriving DecidableEq, Repr

/-- A fresh `SegmentRecorder`. -/
def SegmentRecorder.init : SegRecState :=
  ⟨false, false, [], false, 0⟩

/-- `SegmentRecorder.start`: returns immediately when the worker thread is
already alive (`if self._t and self._t.is_alive(): return`); otherwise
clears the stop event and spawns a new worker thread. -/
def SegmentRecorder.start (s : SegRecState) : SegRecState :=
  if s.threadAlive then s
  else { s with stopFlag := false, threadAlive := true,
                spawned := s.spawned + 1 }

/-! ## `src/audio/recorder.py` : fixed-duration recorder -/

/-- One loop iteration's reader behaviour inside `Recorder.record_seconds`
(`raw = reader.read_bytes()`): either a chunk of bytes (possibly empty)
or an exception from the reader. The event list models what the reader
does on the successive iterations before the wall-clock deadline. -/
inductive ReadEvent where
  | chunk (raw : List Byte)
  | readErr
deriving DecidableEq, Repr

/-- The result of one `Recorder.record_seconds` call: `raised` models an
exception escaping the call, `failed` models `return None`, and
`saved data` models returning a path to a WAV file holding `data`. -/
inductive RecResult where
  | raised
  | failed
  | saved (data : List Byte)
deriving DecidableEq, Repr

/-- The read loop of `record_seconds`
(`while time.monotonic() - start < seconds`): per chunk, `if raw:` then
`buf.extend(raw)` and `tap.write(raw)`. `tapOk raw = false` models
`tap.write(raw)` raising; any exception (reader or tap) leaves the loop
and is caught by the surrounding `except Exception`, modelled as `none`.
When the deadline passes the accumulated buffer is returned. -/
def recLoop (tapOk : List Byte → Bool) :
    List ReadEvent → List Byte → Option (List Byte)
  | [], buf => some buf
  | ReadEvent.readErr :: _, _ => none
  | ReadEvent.chunk raw :: rest, buf =>
      if raw.isEmpty then recLoop tapOk rest buf
      else if tapOk raw then recLoop tapOk rest (buf ++ raw)
      else none

/-- The observable outcome of one `record_seconds` call: the returned
result and whether the WAV writer (`scipy.io.wavfile.write`) was ever
invoked (no file is created unless it is). -/
structure RecRun where
  result : RecResult
  writeInvoked : Bool
deriving DecidableEq, Repr

/-- `Recorder.record_seconds`. The Boolean parameters model the fallible
collaborators: `tapOpenOk` — the `AudioTap` constructor (inside the
`try`, so a failure is caught and yields `None`); `tapOk` — `tap.write`
per chunk (also inside the `try`); `dirOk` — `self.output_dir_fn()` plus
`os.makedirs(outdir, exist_ok=True)`, which are NOT inside any `try`, so
a failure there propagates as an exception; `writeOk` — the WAV `write`
call (inside its own `try`, failure prints and returns `None`). On a
normal loop exit, `n = len(buf) // 2`; zero samples return `None` before
any path is computed; otherwise the first `n * 2` bytes are saved. -/
def record_seconds (reads : List ReadEvent) (tapOk : List Byte → Bool)
    (tapOpenOk dirOk writeOk : Bool) : RecRun :=
  if !tapOpenOk then ⟨RecResult.failed, false⟩
  else
    match recLoop tapOk reads [] with
    | none => ⟨RecResult.failed, false⟩
    | some buf =>
        let n := buf.length / 2
        if n = 0 then ⟨RecResult.failed, false⟩
        else if !dirOk then ⟨RecResult.raised, false⟩
        else if !writeOk then ⟨RecResult.failed, true⟩
        else ⟨RecResult.saved (buf.take (n * 2)), true⟩

/-! ## `src/control/controller.py` : mode state machine -/

/-- The six values the string `self.state` takes in `Controller`. -/
inductive Mode where
  | idle
  | recording
  | monitoring
  | continuous
  | predict
  | error
deriving DecidableEq, Repr

/-- The keys of the `COLORS` palette in `src/config/config.py`, used for
`self.ui.fill(...)` calls. -/
inductive ColorName where
  | GREEN
  | YELLOW
  | RED
  | CYAN
  | ORANGE
  | WHITE
deriving DecidableEq, Repr

/-- Observable actions a command handler performs, in program order:
process restart (`os.execv`), LED fills, assignments to `self.state`,
and pipeline/predictor operations. -/
inductive Event where
  | restartProcess
  | uiFill (color : ColorName)
  | setState (m : Mode)
  | recorderRun
  | monitorStart
  | monitorStop
  | segStart
  | segStop
  | predJoin
  | loadModel
  | predSpawn
deriving DecidableEq, Repr

/-- Controller state from `Controller.__init__`, restricted to the fields
the claims touch: current mode, the lazy `_model_loaded` flag, the
`_pred_running` flag and whether `_pred_thread` is set. -/
structure Ctl where
  state : Mode
  modelLoaded : Bool
  predRunning : Bool
  predThread : Bool
deriving DecidableEq, Repr

/-- The controller as constructed at process start: `self.state = "idle"`,
nothing loaded, no prediction loop. -/
def Ctl.init : Ctl :=
  ⟨Mode.idle, false, false, false⟩

/-- `Controller._stop_all`: stop whatever the current state implies,
swallowing exceptions; in `predict` it clears `_pred_running` and joins
and drops `_pred_thread` when set. -/
def stop_all (s : Ctl) : Ctl × List Event :=
  if s.state = Mode.monitoring then (s, [Event.monitorStop])
  else if s.state = Mode.continuous then (s, [Event.segStop])
  else if s.state = Mode.predict then
    ({ s with predRunning := false, predThread := false },
     if s.predThread then [Event.predJoin] else [])
  else (s, [])

/-- `Controller.raise_error`: record the error, then `_stop_all()`, then
`self.state = "error"`, then `self.ui.fill("RED")`. -/
def raise_error (s : Ctl) : Ctl × List Event :=
  let r := stop_all s
  ({ r.1 with state := Mode.error },
   r.2 ++ [Event.setState Mode.error, Event.uiFill ColorName.RED])

/-- `Controller.to_idle`: `_stop_all()`, `self.state = "idle"`,
`self.ui.fill("GREEN")`. -/
def to_idle (s : Ctl) : Ctl × List Event :=
  let r := stop_all s
  ({ r.1 with state := Mode.idle },
   r.2 ++ [Event.setState Mode.idle, Event.uiFill ColorName.GREEN])

/-- `Controller.on_middle` (command A): from `error` → full process
restart (`os.execv` replaces the process, so the in-memory state is
simply abandoned); from any other state → `to_idle`. -/
def on_middle (s : Ctl) : Ctl × List Event :=
  if s.state = Mode.error then (s, [Event.restartProcess])
  else to_idle s

/-- The outcome of the synchronous `self.recorder.record_seconds(...)`
call inside `on_up`: returned a path (`saved = true`), returned `None`
(`saved = false`), or raised. -/
inductive RecOut where
  | ret (saved : Bool)
  | exn
deriving DecidableEq, Repr

/-- `Controller.on_up` (command B). From `error` → restart. From any
state other than `idle` → return, doing nothing. From `idle` → set
`self.state = "recording"`, fill YELLOW, run the recorder synchronously;
if it returns, fill GREEN (path) or RED (`None`) and set state back to
`idle`; if it raises, route to `raise_error`. -/
def on_up (s : Ctl) (o : RecOut) : Ctl × List Event :=
  if s.state = Mode.error then (s, [Event.restartProcess])
  else if s.state ≠ Mode.idle then (s, [])
  else
    let s1 : Ctl := { s with state := Mode.recording }
    let ev1 := [Event.setState Mode.recording, Event.uiFill ColorName.YELLOW,
      Event.recorderRun]
    match o with
    | RecOut.ret saved =>
        ({ s1 with state := Mode.idle },
         ev1 ++ [Event.uiFill (if saved then ColorName.GREEN else ColorName.RED),
           Event.setState Mode.idle])
    | RecOut.exn =>
        let r := raise_error s1
        (r.1, ev1 ++ r.2)

/-- `Controller.on_left` (command C). From `error` → restart. From
`monitoring` → `monitor.stop()`, fill GREEN, state `idle` (an exception
from the stop routes to `raise_error`). From any other non-idle state →
ignored. From `idle` → state `monitoring`, fill CYAN, `monitor.start()`
(an exception routes to `raise_error`). `stopExn`/`startExn` model an
exception raised by the corresponding monitor call. -/
def on_left (s : Ctl) (stopExn startExn : Bool) : Ctl × List Event :=
  if s.state = Mode.error then (s, [Event.restartProcess])
  else if s.state = Mode.monitoring then
    if stopExn then
      let r := raise_error s
      (r.1, [Event.monitorStop] ++ r.2)
    else
      ({ s with state := Mode.idle },
       [Event.monitorStop, Event.uiFill ColorName.GREEN, Event.setState Mode.idle])
  else if s.state ≠ Mode.idle then (s, [])
  else if startExn then
    let s1 : Ctl := { s with state := Mode.monitoring }
    let r := raise_error s1
    (r.1, [Event.setState Mode.monitoring, Event.uiFill ColorName.CYAN,
      Event.monitorStart] ++ r.2)
  else
    ({ s with state := Mode.monitoring },
     [Event.setState Mode.monitoring, Event.uiFill ColorName.CYAN,
      Event.monitorStart])

/-- `Controller.on_right` (command D). Mirrors `on_left` with the segment
recorder, state `continuous` and the ORANGE fill. -/
def on_right (s : Ctl) (stopExn startExn : Bool) : Ctl × List Event :=
  if s.state = Mode.error then (s, [Event.restartProcess])
  else if s.state = Mode.continuous then
    if stopExn then
      let r := raise_error s
      (r.1, [Event.segStop] ++ r.2)
    else
      ({ s with state := Mode.idle },
       [Event.segStop, Event.uiFill ColorName.GREEN, Event.setState Mode.idle])
  else if s.state ≠ Mode.idle then (s, [])
  else if startExn then
    let s1 : Ctl := { s with state := Mode.continuous }
    let r := raise_error s1
    (r.1, [Event.setState Mode.continuous, Event.uiFill ColorName.ORANGE,
      Event.segStart] ++ r.2)
  else
    ({ s with state := Mode.continuous },
     [Event.setState Mode.continuous, Event.uiFill ColorName.ORANGE,
      Event.segStart])

/-- `Controller.on_down` (command E). From `error` → restart. From
`predict` → stop the loop (clear `_pred_running`, join and drop the
thread), state `idle`, fill GREEN. From any other non-idle state →
ignored. From `idle` → lazily load the model bundle once (`loadExn`
models a load failure, which routes to `raise_error` and aborts), then
state `predict`, set `_pred_running`, and spawn the loop thread
(`spawnExn` models a spawn failure routed to `raise_error`). -/
def on_down (s : Ctl) (loadExn spawnExn : Bool) : Ctl × List Event :=
  if s.state = Mode.error then (s, [Event.restartProcess])
  else if s.state = Mode.predict then
    ({ s with predRunning := false, predThread := false, state := Mode.idle },
     (if s.predThread then [Event.predJoin] else [])
       ++ [Event.setState Mode.idle, Event.uiFill ColorName.GREEN])
  else if s.state ≠ Mode.idle then (s, [])
  else if !s.modelLoaded && loadExn then
    let r := raise_error s
    (r.1, [Event.loadModel] ++ r.2)
  else
    let evload := if s.modelLoaded then [] else [Event.loadModel]
    let s2 : Ctl := { s with modelLoaded := true, state := Mode.predict, predRunning := true }
    if spawnExn then
      let r := raise_error s2
      (r.1, evload ++ [Event.setState Mode.predict] ++ r.2)
    else
      ({ s2 with predThread := true },
       evload ++ [Event.setState Mode.predict, Event.predSpawn])

/-! ## `src/ui/sense_ui.py` and `src/config/config.py` -/

/-- An RGB colour triple. -/
abbrev Color := Nat × Nat × Nat

/-- Python's `%` on integers for a positive divisor: the result lies in
`[0, divisor)`, which is `Int.emod`'s behaviour for a positive divisor.
(`a % 0` raises `ZeroDivisionError` in Python; `draw_pred_class` is
modelled to return `none` in that case before the modulo is taken.) -/
def pyMod (a b : Int) : Int :=
  Int.emod a b

/-- `CLASS_COLORS` from `src/config/config.py`: the 10 class colours. -/
def CLASS_COLORS : List Color :=
  [(0, 0, 255), (255, 105, 180), (0, 200, 255), (255, 140, 0),
   (128, 0, 128), (0, 128, 0), (255, 0, 255), (128, 128, 0),
   (255, 20, 147), (70, 130, 180)]

/-- `sense.set_pixel(x, y, c)` on a functional grid. -/
def setPixel (g : Nat → Nat → Color) (px py : Nat) (c : Color) :
    Nat → Nat → Color :=
  fun x y => if x = px ∧ y = py then c else g x y

/-- `sense.clear()`: every pixel black. -/
def clearGrid : Nat → Nat → Color :=
  fun _ _ => (0, 0, 0)

/-- The border loop of `SenseUI.draw_pred_class`:
`for i in range(8): set_pixel(i,0); set_pixel(i,7); set_pixel(0,i);
set_pixel(7,i)`. -/
def drawBorder (b : Color) (g : Nat → Nat → Color) : Nat → Nat → Color :=
  (List.range 8).foldl
    (fun g i =>
      setPixel (setPixel (setPixel (setPixel g i 0 b) i 7 b) 0 i b) 7 i b) g

/-- The interior loop of `SenseUI.draw_pred_class`:
`for x in range(1, 7): for y in range(1, 7): set_pixel(x, y, color)`. -/
def drawInterior (c : Color) (g : Nat → Nat → Color) : Nat → Nat → Color :=
  (List.range' 1 6).foldl
    (fun g x => (List.range' 1 6).foldl (fun g2 y => setPixel g2 x y c) g) g

/-- `SenseUI.draw_pred_class`: clear the matrix, draw the 1-pixel border
in the border colour, pick `palette[cls_idx % len(palette)]`, and fill
the 6×6 interior with it. `none` models the places where the Python code
would raise: modulo by zero on an empty palette, or an out-of-range list
index. -/
def draw_pred_class (cls_idx : Int) (palette : List Color) (border : Color) :
    Option (Nat → Nat → Color) :=
  if palette.length = 0 then none
  else
    let g1 := drawBorder border clearGrid
    match palette[(pyMod cls_idx palette.length).toNat]? with
    | none => none
    | some color => some (drawInterior color g1)

theorem cutAll_join (sb : Nat) (buf : List Byte) :
    (cutAll sb buf).1.flatten ++ (cutAll sb buf).2 = buf := by
  induction buf using cutAll.induct sb with
  | case1 buf h ih =>
    rw [cutAll]
    simp only [dif_pos h]
    simp [List.flatten, List.append_assoc, ih]
  | case2 buf h =>
    rw [cutAll]
    simp [dif_neg h]

theorem cutAll_seg_len (sb : Nat) (buf : List Byte) :
    ∀ s ∈ (cutAll sb buf).1, s.length = sb := by
  induction buf using cutAll.induct sb with
  | case1 buf h ih =>
    rw [cutAll]
    simp only [dif_pos h]
    intro s hs
    rcases List.mem_cons.mp hs with rfl | hs
    · simpa using Nat.min_eq_left h.2
    · exact ih s hs
  | case2 buf h =>
    rw [cutAll]
    simp [dif_neg h]

theorem cutAll_rem_lt (sb : Nat) (hsb : 0 < sb) (buf : List Byte) :
    (cutAll sb buf).2.length < sb := by
  induction buf using cutAll.induct sb with
  | case1 buf h ih =>
    rw [cutAll]
    simpa [dif_pos h] using ih
  | case2 buf h =>
    rw [cutAll]
    simp only [dif_neg h]
    omega

theorem segFold_spec (sb : Nat) (hsb : 0 < sb) (chunks : List (List Byte)) :
    ∀ st : List (List Byte) × List Byte,
      (chunks.foldl (segStep sb) st).1.flatten ++ (chunks.foldl (segStep sb) st).2
          = st.1.flatten ++ (st.2 ++ chunks.flatten)
      ∧ (∀ s ∈ (chunks.foldl (segStep sb) st).1, s ∈ st.1 ∨ s.length = sb)
      ∧ (st.2.length < sb → (chunks.foldl (segStep sb) st).2.length < sb) := by
  induction chunks with
  | nil =>
    intro st
    refine ⟨by simp, fun s hs => Or.inl hs, fun h => by simpa using h⟩
  | cons raw rest ih =>
    intro st
    simp only [List.foldl_cons, List.flatten_cons]
    by_cases hraw : raw.isEmpty
    · have hstep : segStep sb st raw = st := by
        simp [segStep, hraw]
      rw [hstep]
      have hre : raw = [] := List.isEmpty_iff.mp hraw
      obtain ⟨h1, h2, h3⟩ := ih st
      refine ⟨?_, h2, h3⟩
      rw [h1, hre]
      simp
    · have hstep : segStep sb st raw
          = (st.1 ++ (cutAll sb (st.2 ++ raw)).1, (cutAll sb (st.2 ++ raw)).2) := by
        simp [segStep, hraw]
      rw [hstep]
      obtain ⟨h1, h2, h3⟩ :=
        ih (st.1 ++ (cutAll sb (st.2 ++ raw)).1, (cutAll sb (st.2 ++ raw)).2)
      refine ⟨?_, ?_, fun _ => h3 (cutAll_rem_lt sb hsb _)⟩
      · rw [h1]
        simp only [List.flatten_append, List.append_assoc]
        congr 1
        rw [← List.append_assoc, ← List.append_assoc, cutAll_join sb (st.2 ++ raw),
          List.append_assoc]
      · intro s hs
        rcases h2 s hs with hmem | hlen
        · rcases List.mem_append.mp hmem with h | h
          · exact Or.inl h
          · exact Or.inr (cutAll_seg_len sb _ s h)
        · exact Or.inr hlen

theorem flatten_len_of_all (sb : Nat) (l : List (List Byte))
    (h : ∀ s ∈ l, s.length = sb) : l.flatten.length = l.length * sb := by
  induction l with
  | nil => simp
  | cons a t ih =>
    simp only [List.flatten_cons, List.length_append, List.length_cons]
    rw [h a (by simp), ih (fun s hs => h s (by simp [hs]))]
    ring

theorem mul_add_lt_unique {sb a b c d : Nat} (h : a * sb + b = c * sb + d)
    (hb : b < sb) (hd : d < sb) : a = c ∧ b = d := by
  have hsb : 0 < sb := Nat.pos_of_ne_zero (by omega)
  have hmodl : (a * sb + b) % sb = b := by
    rw [Nat.add_comm, Nat.add_mul_mod_self_right, Nat.mod_eq_of_lt hb]
  have hmodr : (c * sb + d) % sb = d := by
    rw [Nat.add_comm, Nat.add_mul_mod_self_right, Nat.mod_eq_of_lt hd]
  have hbd : b = d := by rw [← hmodl, ← hmodr, h]
  refine ⟨?_, hbd⟩
  subst hbd
  have : a * sb = c * sb := by omega
  exact Nat.eq_of_mul_eq_mul_right hsb this

/-- C7: for an input stream whose bytes total `K × segment_bytes + R` with
`R < segment_bytes`, `SegmentRecorder._loop` cuts exactly `K` full segments,
each exactly `segment_bytes = fs × segment_seconds × 2` bytes, from the
front of the rolling buffer in stream order, and exactly `R` bytes remain in
the rolling buffer. -/
theorem C7_segment_cutting (fs segsec : Nat) (hfs : 0 < fs) (hss : 0 < segsec)
    (chunks : List (List Byte)) (K R : Nat)
    (htot : chunks.flatten.length = K * segment_bytes fs segsec + R)
    (hR : R < segment_bytes fs segsec) :
    (segRun (segment_bytes fs segsec) chunks).1.length = K
    ∧ (∀ s ∈ (segRun (segment_bytes fs segsec) chunks).1,
        s.length = segment_bytes fs segsec)
    ∧ (segRun (segment_bytes fs segsec) chunks).2.length = R
    ∧ (segRun (segment_bytes fs segsec) chunks).1.flatten
        ++ (segRun (segment_bytes fs segsec) chunks).2 = chunks.flatten := by
  have hsb : 0 < segment_bytes fs segsec := by
    unfold segment_bytes
    positivity
  obtain ⟨h1, h2, h3⟩ := segFold_spec (segment_bytes fs segsec) hsb chunks ([], [])
  simp only [List.flatten_nil, List.nil_append, List.length_nil] at h1 h2 h3
  have hall : ∀ s ∈ (segRun (segment_bytes fs segsec) chunks).1,
      s.length = segment_bytes fs segsec := by
    intro s hs
    rcases h2 s hs with hmem | hlen
    · exact absurd hmem (List.not_mem_nil s)
    · exact hlen
  have hrem : (segRun (segment_bytes fs segsec) chunks).2.length
      < segment_bytes fs segsec := h3 hsb
  have hjoin : (segRun (segment_bytes fs segsec) chunks).1.flatten
      ++ (segRun (segment_bytes fs segsec) chunks).2 = chunks.flatten := h1
  have hlen : (segRun (segment_bytes fs segsec) chunks).1.length
        * segment_bytes fs segsec
      + (segRun (segment_bytes fs segsec) chunks).2.length
      = K * segment_bytes fs segsec + R := by
    rw [← flatten_len_of_all _ _ hall, ← htot, ← hjoin, List.length_append]
  obtain ⟨hK, hR2⟩ := mul_add_lt_unique hlen hrem hR
  exact ⟨hK, hall, hR2, hjoin⟩

/-- Witness for C7 at concrete inputs: sample rate 2, segment length 1 s,
so 4 bytes per segment; 6 input bytes give one segment and 2 leftover
bytes. -/
theorem C7_segment_cutting_witness :
    (segRun (segment_bytes 2 1) [[1, 2, 3], [4, 5, 6]]).1.length = 1
    ∧ (segRun (segment_bytes 2 1) [[1, 2, 3], [4, 5, 6]]).2.length = 2 := by
  have h := C7_segment_cutting 2 1 (by decide) (by decide)
    [[1, 2, 3], [4, 5, 6]] 1 2 (by decide) (by decide)
  exact ⟨h.1, h.2.2.1⟩

theorem qRunFrom_len (cap : Nat) (ops : List QOp) :
    ∀ st : List (List Byte) × List (List Byte), st.1.length ≤ cap →
      (qRunFrom cap ops st).1.length ≤ cap := by
  induction ops with
  | nil =>
    intro st h
    simpa [qRunFrom] using h
  | cons op rest ih =>
    intro st h
    match op with
    | QOp.push c =>
      refine ih _ ?_
      simp only [qpush]
      split
      · simpa using by omega
      · exact h
    | QOp.pop =>
      refine ih _ ?_
      match hq : st.1 with
      | [] => simp [qpop]
      | x :: xs =>
        simp only [qpop]
        have := hq ▸ h
        simp at this ⊢
        omega

theorem qRunFrom_order (cap : Nat) (ops : List QOp) :
    ∀ st : List (List Byte) × List (List Byte),
      ((qRunFrom cap ops st).2 ++ (qRunFrom cap ops st).1).Sublist
        ((st.2 ++ st.1) ++ qPushed ops) := by
  induction ops with
  | nil =>
    intro st
    simp [qRunFrom, qPushed]
  | cons op rest ih =>
    intro st
    match op with
    | QOp.push c =>
      simp only [qRunFrom, qPushed]
      refine (ih (qpush cap st.1 c, st.2)).trans ?_
      simp only [qpush]
      split
      · simp only [List.append_assoc, List.singleton_append]
        exact List.Sublist.refl _
      · rw [List.append_assoc, List.append_assoc]
        refine List.Sublist.append_left ?_ st.2
        refine List.Sublist.append_left ?_ st.1
        exact (List.sublist_cons_self c (qPushed rest))
    | QOp.pop =>
      simp only [qRunFrom, qPushed]
      refine (ih _).trans ?_
      match hq : st.1 with
      | [] => simp [qpop]
      | x :: xs => simp [qpop]

/-- C9: on the Monitor's bounded chunk queue (`queue.Queue(maxsize=64)`),
for every sequence of pushes and pops starting from the empty queue the
size never exceeds 64; the delivered chunks followed by the still-queued
chunks form an order-preserving subsequence of the pushed chunks (so
non-dropped chunks are delivered in enqueue order); and a push onto a full
queue drops the incoming chunk, leaving the queue unchanged. -/
theorem C9_bounded_queue (ops : List QOp) :
    (qRun 64 ops).1.length ≤ 64
    ∧ ((qRun 64 ops).2 ++ (qRun 64 ops).1).Sublist (qPushed ops)
    ∧ (∀ (q : List (List Byte)) (c : List Byte), q.length = 64 →
        qpush 64 q c = q) := by
  refine ⟨qRunFrom_len 64 ops ([], []) (by simp), ?_, ?_⟩
  · simpa using qRunFrom_order 64 ops ([], [])
  · intro q c h
    simp [qpush, h]

/-- Witness for C9 at concrete inputs: push two chunks and pop one on the
empty queue of capacity 64, and push onto a concrete full queue. -/
theorem C9_bounded_queue_witness :
    (qRun 64 [QOp.push [1], QOp.push [2], QOp.pop]).1 = [[2]]
    ∧ (qRun 64 [QOp.push [1], QOp.push [2], QOp.pop]).2 = [[1]]
    ∧ qpush 64 (List.replicate 64 [9]) [7] = List.replicate 64 [9] := by
  refine ⟨by decide, by decide, ?_⟩
  exact (C9_bounded_queue []).2.2 (List.replicate 64 [9]) [7] (by decide)

/-- C4 fails as stated: with 2 bytes buffered and 2 frames (4 bytes)
requested, `_audio_cb` zero-fills the whole output and consumes nothing —
the output is not "buffered bytes followed by silence for the missing
portion", and the buffered bytes are not removed. -/
theorem C4_counterexample :
    audio_cb [7, 7] 2 = (List.replicate 4 0, [7, 7])
    ∧ (audio_cb [7, 7] 2).1 ≠ [7, 7] ++ List.replicate 2 0
    ∧ (audio_cb [7, 7] 2).2 ≠ [] := by
  refine ⟨by decide, by decide, by decide⟩

/-- C4 amended: the output callback always produces exactly `frames × 2`
output bytes and is total (never raises, mirroring the catch-all
zero-filling `except`). When at least `frames × 2` bytes are buffered,
exactly the first `frames × 2` bytes are removed and copied to the output
in enqueue order; when fewer bytes are buffered, the ENTIRE output block
is silence and the buffer is left unchanged (buffered bytes are deferred,
not partially played). -/
theorem C4_audio_callback (buf : List Byte) (frames : Nat) :
    (audio_cb buf frames).1.length = frames * 2
    ∧ (frames * 2 ≤ buf.length →
        (audio_cb buf frames).1 = buf.take (frames * 2)
        ∧ (audio_cb buf frames).2 = buf.drop (frames * 2)
        ∧ (audio_cb buf frames).1 ++ (audio_cb buf frames).2 = buf)
    ∧ (buf.length < frames * 2 →
        (audio_cb buf frames).1 = List.replicate (frames * 2) 0
        ∧ (audio_cb buf frames).2 = buf) := by
  by_cases h : buf.length < frames * 2
  · have e : audio_cb buf frames = (List.replicate (frames * 2) 0, buf) := by
      simp [audio_cb, h]
    rw [e]
    refine ⟨by simp, fun hle => absurd hle (by omega), fun _ => ⟨rfl, rfl⟩⟩
  · have e : audio_cb buf frames
        = (buf.take (frames * 2), buf.drop (frames * 2)) := by
      simp [audio_cb, h]
    rw [e]
    push_neg at h
    refine ⟨by simp [List.length_take]; omega,
      fun _ => ⟨rfl, rfl, List.take_append_drop _ _⟩,
      fun hlt => absurd hlt (by omega)⟩

/-- Witness for C4 at concrete inputs: a sufficient buffer of 6 bytes with
2 frames requested, and an underrun with 1 byte buffered. -/
theorem C4_audio_callback_witness :
    (audio_cb [1, 2, 3, 4, 5, 6] 2).1 = [1, 2, 3, 4]
    ∧ (audio_cb [1, 2, 3, 4, 5, 6] 2).2 = [5, 6]
    ∧ (audio_cb [9] 2).1 = List.replicate 4 0
    ∧ (audio_cb [9] 2).2 = [9] := by
  obtain ⟨-, h2, -⟩ := C4_audio_callback [1, 2, 3, 4, 5, 6] 2
  obtain ⟨ha, hb, -⟩ := h2 (by decide)
  obtain ⟨-, -, h3⟩ := C4_audio_callback [9] 2
  obtain ⟨hc, hd⟩ := h3 (by decide)
  exact ⟨by simpa using ha, by simpa using hb, hc, hd⟩

/-- C5 fails as stated: a `Monitor` whose chunk queue holds a chunk when
`stop()` is called still holds that chunk afterwards — `stop` clears only
the playback buffer `_buf`, never the bounded chunk queue `_q`. -/
theorem C5_counterexample :
    (Monitor.stop { Monitor.init with q := [[1, 2]], buf := [3, 4] }).q
      = [[1, 2]] := by
  decide

/-- C5 amended: after `Monitor.stop` the playback byte buffer is empty,
the output stream is closed (handle dropped), both background thread
handles are joined and dropped, and the stop event is set — for every
state, including a monitor on which `start` was never called — but the
bounded chunk queue is left exactly as it was, not cleared. -/
theorem C5_monitor_stop (s : MonitorState) :
    (Monitor.stop s).buf = []
    ∧ (Monitor.stop s).stream = none
    ∧ (Monitor.stop s).tReader = none
    ∧ (Monitor.stop s).tPump = none
    ∧ (Monitor.stop s).stopFlag = true
    ∧ (Monitor.stop s).q = s.q := by
  unfold Monitor.stop
  exact ⟨rfl, rfl, rfl, rfl, rfl, rfl⟩

/-- C6 fails as stated for the Monitor: calling `Monitor.start` a second
time while running is not a no-op — it spawns two more threads, opens
another output stream, and changes the state. -/
theorem C6_counterexample :
    (Monitor.start (Monitor.start Monitor.init)).spawned = 4
    ∧ (Monitor.start Monitor.init).spawned = 2
    ∧ (Monitor.start (Monitor.start Monitor.init)).streamsOpened = 2
    ∧ Monitor.start (Monitor.start Monitor.init) ≠ Monitor.start Monitor.init := by
  refine ⟨by decide, by decide, by decide, by decide⟩

/-- C6 amended: `SegmentRecorder.start` is idempotent — a second `start`
while the worker is running is a no-op (so `start ∘ start = start`) — but
`Monitor.start` has no running-guard: every call spawns two new threads
and opens a new output stream, regardless of whether the monitor is
already running. -/
theorem C6_start_idempotence :
    (∀ s : SegRecState,
      SegmentRecorder.start (SegmentRecorder.start s) = SegmentRecorder.start s)
    ∧ (∀ s : MonitorState,
        (Monitor.start s).spawned = s.spawned + 2
        ∧ (Monitor.start s).streamsOpened = s.streamsOpened + 1) := by
  constructor
  · intro s
    unfold SegmentRecorder.start
    by_cases h : s.threadAlive
    · simp [h]
    · simp [h]
  · intro s
    exact ⟨rfl, rfl⟩

/-- C2 fails as stated: `tap.write` sits inside the same `try` as the
reader loop, so a tap failure aborts the recording. Here the reader
delivers a 2-byte chunk, the tap raises on it, and although the reader,
zero-sample check, directory and write would all have succeeded, the
bytes are discarded and `record_seconds` returns `None`. -/
theorem C2_counterexample :
    record_seconds [ReadEvent.chunk [1, 2]] (fun _ => false) true true true
      = ⟨RecResult.failed, false⟩
    ∧ record_seconds [ReadEvent.chunk [1, 2]] (fun _ => true) true true true
      = ⟨RecResult.saved [1, 2], true⟩ := by
  refine ⟨by decide, by decide⟩

/-- C2 amended: a failure of the live tap DOES abort the recording, on the
same path as a reader error: if every earlier iteration read a chunk that
was empty or tapped successfully, and then a nonempty chunk makes
`tap.write` raise, `record_seconds` returns `None` and writes no file,
discarding all accumulated bytes — regardless of the remaining reads and
of the directory and write outcomes. -/
theorem C2_tap_failure_aborts (pre post : List ReadEvent)
    (tapOk : List Byte → Bool) (raw : List Byte)
    (dirOk writeOk : Bool)
    (hpre : ∀ e ∈ pre, ∃ c, e = ReadEvent.chunk c ∧ (c.isEmpty ∨ tapOk c))
    (hraw : ¬raw.isEmpty) (htap : tapOk raw = false) :
    record_seconds (pre ++ ReadEvent.chunk raw :: post) tapOk true dirOk writeOk
      = ⟨RecResult.failed, false⟩ := by
  have hloop : ∀ buf, recLoop tapOk (pre ++ ReadEvent.chunk raw :: post) buf
      = none := by
    induction pre with
    | nil =>
      intro buf
      simp [recLoop, hraw, htap]
    | cons e rest ih =>
      intro buf
      obtain ⟨c, rfl, hc⟩ := hpre e (by simp)
      have ihr := ih (fun e he => hpre e (by simp [he]))
      rcases hc with hc | hc
      · simpa [recLoop, hc] using ihr buf
      · by_cases hce : c.isEmpty
        · simpa [recLoop, hce] using ihr buf
        · simpa [recLoop, hce, hc] using ihr (buf ++ c)
  simp [record_seconds, hloop []]

/-- Witness for C2 amended at concrete inputs: one successfully tapped
chunk, then a chunk on which the tap raises. -/
theorem C2_tap_failure_aborts_witness :
    record_seconds [ReadEvent.chunk [1, 2], ReadEvent.chunk [3, 4]]
        (fun c => decide (c = [1, 2])) true true true
      = ⟨RecResult.failed, false⟩ := by
  have h := C2_tap_failure_aborts [ReadEvent.chunk [1, 2]] []
    (fun c => decide (c = [1, 2])) [3, 4] true true
    (by intro e he
        refine ⟨[1, 2], ?_, ?_⟩
        · have : e = ReadEvent.chunk [1, 2] := by simpa using he
          exact this
        · right
          decide)
    (by decide) (by decide)
  simpa using h

/-- C3 fails as stated: a directory-resolution or directory-creation
failure does NOT return `None` — `self.output_dir_fn()` and `os.makedirs`
sit outside every `try`, so the exception propagates out of
`record_seconds`. Here the reader delivers one 2-byte chunk and the
directory step fails: the call raises instead of returning `None`. -/
theorem C3_counterexample :
    (record_seconds [ReadEvent.chunk [1, 2]] (fun _ => true) true false true).result
      = RecResult.raised := by
  decide

/-- C3 amended: reader errors and tap errors (loop aborts), zero captured
samples, and file-write failures all make `record_seconds` return `None`
rather than raise; when zero samples were captured no file is created
(the writer is never invoked); and whenever the directory step succeeds
the call never raises. Only a directory-resolution/creation failure
escapes as an exception. -/
theorem C3_record_failures (reads : List ReadEvent) (tapOk : List Byte → Bool)
    (tapOpenOk dirOk writeOk : Bool) :
    (dirOk = true →
      (record_seconds reads tapOk tapOpenOk dirOk writeOk).result
        ≠ RecResult.raised)
    ∧ (recLoop tapOk reads [] = none →
        record_seconds reads tapOk tapOpenOk dirOk writeOk
          = ⟨RecResult.failed, false⟩)
    ∧ (∀ buf, recLoop tapOk reads [] = some buf → buf.length / 2 = 0 →
        record_seconds reads tapOk tapOpenOk dirOk writeOk
          = ⟨RecResult.failed, false⟩)
    ∧ (dirOk = true → writeOk = false →
        (record_seconds reads tapOk tapOpenOk dirOk writeOk).result
          = RecResult.failed) := by
  unfold record_seconds
  refine ⟨?_, ?_, ?_, ?_⟩
  · rintro rfl
    cases htap : tapOpenOk
    · simp
    · simp only [Bool.not_true, Bool.false_eq_true, if_false]
      cases hl : recLoop tapOk reads [] with
      | none => simp
      | some buf =>
        by_cases hn : buf.length / 2 = 0
        · simp [hn]
        · by_cases hw : writeOk
          · simp [hn, hw]
          · simp [hn, hw]
  · intro hl
    cases htap : tapOpenOk
    · simp
    · simp [hl]
  · intro buf hl hn
    cases htap : tapOpenOk
    · simp
    · simp [hl, hn]
  · rintro rfl hw
    cases htap : tapOpenOk
    · simp
    · cases hl : recLoop tapOk reads [] with
      | none => simp [hl]
      | some buf =>
        by_cases hn : buf.length / 2 = 0
        · simp [hl, hn]
        · simp [hl, hn, hw]

/-- Witness for C3 amended at concrete inputs: a reader error, a
zero-sample run (reader yields only empty chunks), and a write failure,
each returning `None`; the zero-sample run never invokes the writer. -/
theorem C3_record_failures_witness :
    record_seconds [ReadEvent.readErr] (fun _ => true) true true true
      = ⟨RecResult.failed, false⟩
    ∧ record_seconds [ReadEvent.chunk []] (fun _ => true) true true true
      = ⟨RecResult.failed, false⟩
    ∧ (record_seconds [ReadEvent.chunk [1, 2]] (fun _ => true) true true false).result
      = RecResult.failed := by
  refine ⟨?_, ?_, ?_⟩
  · exact (C3_record_failures [ReadEvent.readErr] (fun _ => true) true true
      true).2.1 (by decide)
  · exact (C3_record_failures [ReadEvent.chunk []] (fun _ => true) true true
      true).2.2.1 [] (by decide) (by decide)
  · exact (C3_record_failures [ReadEvent.chunk [1, 2]] (fun _ => true) true true
      false).2.2.2 rfl rfl

/-- C1 fails as stated: a command other than A delivered in the `error`
state does not freeze — every handler begins with
`if self.state == "error": self.restart()`, so B, C, D and E each
initiate a full process restart from `error`, exactly like A. -/
theorem C1_counterexample :
    (on_up ⟨Mode.error, false, false, false⟩ (RecOut.ret true)).2
      = [Event.restartProcess]
    ∧ (on_left ⟨Mode.error, false, false, false⟩ false false).2
      = [Event.restartProcess]
    ∧ (on_right ⟨Mode.error, false, false, false⟩ false false).2
      = [Event.restartProcess]
    ∧ (on_down ⟨Mode.error, false, false, false⟩ false false).2
      = [Event.restartProcess] := by
  refine ⟨by decide, by decide, by decide, by decide⟩

/-- C1 amended: in the `error` state every one of the five commands —
not only A — performs a full process restart: each handler immediately
emits the restart action and nothing else (no pipeline is started or
stopped, no state assignment happens; the process image is replaced). -/
theorem C1_error_state (s : Ctl) (h : s.state = Mode.error) (o : RecOut)
    (b1 b2 b3 b4 b5 b6 : Bool) :
    on_middle s = (s, [Event.restartProcess])
    ∧ on_up s o = (s, [Event.restartProcess])
    ∧ on_left s b1 b2 = (s, [Event.restartProcess])
    ∧ on_right s b3 b4 = (s, [Event.restartProcess])
    ∧ on_down s b5 b6 = (s, [Event.restartProcess]) := by
  refine ⟨?_, ?_, ?_, ?_, ?_⟩ <;>
    simp [on_middle, on_up, on_left, on_right, on_down, h]

/-- Witness for C1 amended at the concrete error-state controller. -/
theorem C1_error_state_witness :
    on_up ⟨Mode.error, true, false, false⟩ RecOut.exn
      = (⟨Mode.error, true, false, false⟩, [Event.restartProcess])
    ∧ on_middle ⟨Mode.error, true, false, false⟩
      = (⟨Mode.error, true, false, false⟩, [Event.restartProcess]) := by
  have h := C1_error_state ⟨Mode.error, true, false, false⟩ rfl RecOut.exn
    false false false false false false
  exact ⟨h.2.1, h.1⟩

/-- C8: command B is accepted only in `idle`. From `idle` it sets the
state to `recording`, runs the recorder synchronously, and when the
recorder returns — path or `None` alike — fills GREEN or RED and returns
the state to `idle`; when the recorder raises, the centralized
`raise_error` runs instead and the state becomes `error`. In every state
other than `idle` the recorder is never run. -/
theorem C8_short_record (s : Ctl) (h : s.state = Mode.idle) (saved : Bool) :
    on_up s (RecOut.ret saved)
      = ({ s with state := Mode.idle },
         [Event.setState Mode.recording, Event.uiFill ColorName.YELLOW,
          Event.recorderRun,
          Event.uiFill (if saved then ColorName.GREEN else ColorName.RED),
          Event.setState Mode.idle])
    ∧ (on_up s (RecOut.ret saved)).1.state = Mode.idle
    ∧ on_up s RecOut.exn
      = ({ s with state := Mode.error },
         [Event.setState Mode.recording, Event.uiFill ColorName.YELLOW,
          Event.recorderRun, Event.setState Mode.error,
          Event.uiFill ColorName.RED])
    ∧ (∀ (s' : Ctl) (o : RecOut), s'.state ≠ Mode.idle →
        Event.recorderRun ∉ (on_up s' o).2) := by
  have hne : s.state ≠ Mode.error := by
    rw [h]
    decide
  refine ⟨?_, ?_, ?_, ?_⟩
  · simp [on_up, h]
  · simp [on_up, h]
  · simp [on_up, raise_error, stop_all, h]
  · intro s' o hs'
    by_cases he : s'.state = Mode.error
    · simp [on_up, he]
    · simp [on_up, he, hs']

/-- Witness for C8 at the freshly constructed controller. -/
theorem C8_short_record_witness :
    (on_up Ctl.init (RecOut.ret false)).1.state = Mode.idle
    ∧ (on_up Ctl.init RecOut.exn).1.state = Mode.error := by
  have h := C8_short_record Ctl.init rfl false
  refine ⟨h.2.1, ?_⟩
  rw [h.2.2.1]

theorem setPixel_eq (g : Nat → Nat → Color) (px py : Nat) (c : Color)
    (x y : Nat) :
    setPixel g px py c x y = if x = px ∧ y = py then c else g x y :=
  rfl

theorem borderFold_not (b : Color) (l : List Nat) :
    ∀ (g : Nat → Nat → Color) (x y : Nat),
      ¬((y = 0 ∨ y = 7) ∧ x ∈ l ∨ (x = 0 ∨ x = 7) ∧ y ∈ l) →
      (l.foldl (fun g i =>
          setPixel (setPixel (setPixel (setPixel g i 0 b) i 7 b) 0 i b) 7 i b)
        g) x y = g x y := by
  induction l with
  | nil =>
    intro g x y h
    rfl
  | cons i rest ih =>
    intro g x y h
    rw [List.foldl_cons, ih _ x y (by
      intro hc
      rcases hc with ⟨hy, hx⟩ | ⟨hx, hy⟩
      · exact h (Or.inl ⟨hy, List.mem_cons_of_mem i hx⟩)
      · exact h (Or.inr ⟨hx, List.mem_cons_of_mem i hy⟩))]
    simp only [setPixel_eq]
    rw [if_neg, if_neg, if_neg, if_neg]
    · rintro ⟨rfl, rfl⟩
      exact h (Or.inl ⟨Or.inl rfl, List.mem_cons_self _ rest⟩)
    · rintro ⟨rfl, rfl⟩
      exact h (Or.inl ⟨Or.inr rfl, List.mem_cons_self _ rest⟩)
    · rintro ⟨rfl, rfl⟩
      exact h (Or.inr ⟨Or.inl rfl, List.mem_cons_self _ rest⟩)
    · rintro ⟨rfl, rfl⟩
      exact h (Or.inr ⟨Or.inr rfl, List.mem_cons_self _ rest⟩)

theorem borderFold_mem (b : Color) (l : List Nat) :
    ∀ (g : Nat → Nat → Color) (x y : Nat),
      ((y = 0 ∨ y = 7) ∧ x ∈ l ∨ (x = 0 ∨ x = 7) ∧ y ∈ l) →
      (l.foldl (fun g i =>
          setPixel (setPixel (setPixel (setPixel g i 0 b) i 7 b) 0 i b) 7 i b)
        g) x y = b := by
  induction l with
  | nil =>
    intro g x y h
    rcases h with ⟨-, hx⟩ | ⟨-, hy⟩
    · exact absurd hx (List.not_mem_nil x)
    · exact absurd hy (List.not_mem_nil y)
  | cons i rest ih =>
    intro g x y h
    rw [List.foldl_cons]
    by_cases hr : (y = 0 ∨ y = 7) ∧ x ∈ rest ∨ (x = 0 ∨ x = 7) ∧ y ∈ rest
    · exact ih _ x y hr
    · rw [borderFold_not b rest _ x y hr]
      simp only [setPixel_eq]
      rcases h with ⟨hy, hx⟩ | ⟨hx, hy⟩
      · have hxi : x = i := by
          rcases List.mem_cons.mp hx with h' | h'
          · exact h'
          · exact absurd (Or.inl ⟨hy, h'⟩) hr
        subst hxi
        rcases hy with rfl | rfl <;> split_ifs <;> first | rfl | omega
      · have hyi : y = i := by
          rcases List.mem_cons.mp hy with h' | h'
          · exact h'
          · exact absurd (Or.inr ⟨hx, h'⟩) hr
        subst hyi
        rcases hx with rfl | rfl <;> split_ifs <;> first | rfl | omega

theorem interiorRow_not (c : Color) (px : Nat) (ly : List Nat) :
    ∀ (g : Nat → Nat → Color) (x y : Nat), x ≠ px ∨ y ∉ ly →
      (ly.foldl (fun g2 py => setPixel g2 px py c) g) x y = g x y := by
  induction ly with
  | nil =>
    intro g x y h
    rfl
  | cons j rest ih =>
    intro g x y h
    have hrest : x ≠ px ∨ y ∉ rest := by
      rcases h with h | h
      · exact Or.inl h
      · exact Or.inr (fun hy => h (List.mem_cons_of_mem j hy))
    rw [List.foldl_cons, ih _ x y hrest, setPixel_eq, if_neg]
    rintro ⟨rfl, rfl⟩
    rcases h with h | h
    · exact h rfl
    · exact h (List.mem_cons_self y rest)

theorem interiorRow_mem (c : Color) (px : Nat) (ly : List Nat) :
    ∀ (g : Nat → Nat → Color) (y : Nat), y ∈ ly →
      (ly.foldl (fun g2 py => setPixel g2 px py c) g) px y = c := by
  induction ly with
  | nil =>
    intro g y h
    exact absurd h (List.not_mem_nil y)
  | cons j rest ih =>
    intro g y h
    rw [List.foldl_cons]
    by_cases hyr : y ∈ rest
    · exact ih _ y hyr
    · have hyj : y = j := by
        rcases List.mem_cons.mp h with h' | h'
        · exact h'
        · exact absurd h' hyr
      subst hyj
      rw [interiorRow_not c px rest _ px y (Or.inr hyr), setPixel_eq,
        if_pos ⟨rfl, rfl⟩]

theorem interiorFold_not_row (c : Color) (ly lx : List Nat) :
    ∀ (g : Nat → Nat → Color) (x y : Nat), x ∉ lx →
      (lx.foldl (fun g px => ly.foldl (fun g2 py => setPixel g2 px py c) g) g)
        x y = g x y := by
  induction lx with
  | nil =>
    intro g x y h
    rfl
  | cons i rest ih =>
    intro g x y h
    have hi : x ≠ i := fun he => h (he ▸ List.mem_cons_self i rest)
    rw [List.foldl_cons, ih _ x y (fun hr => h (List.mem_cons_of_mem i hr))]
    exact interiorRow_not c i ly g x y (Or.inl hi)

theorem interiorFold_mem (c : Color) (lx ly : List Nat) :
    ∀ (g : Nat → Nat → Color) (x y : Nat), x ∈ lx → y ∈ ly →
      (lx.foldl (fun g px => ly.foldl (fun g2 py => setPixel g2 px py c) g) g)
        x y = c := by
  induction lx with
  | nil =>
    intro g x y hx hy
    exact absurd hx (List.not_mem_nil x)
  | cons i rest ih =>
    intro g x y hx hy
    rw [List.foldl_cons]
    by_cases hxr : x ∈ rest
    · exact ih _ x y hxr hy
    · have hxi : x = i := by
        rcases List.mem_cons.mp hx with h' | h'
        · exact h'
        · exact absurd h' hxr
      subst hxi
      rw [interiorFold_not_row c ly rest _ x y hxr]
      exact interiorRow_mem c x ly g y hy

theorem interiorFold_not (c : Color) (lx ly : List Nat) :
    ∀ (g : Nat → Nat → Color) (x y : Nat), x ∉ lx ∨ y ∉ ly →
      (lx.foldl (fun g px => ly.foldl (fun g2 py => setPixel g2 px py c) g) g)
        x y = g x y := by
  induction lx with
  | nil =>
    intro g x y h
    rfl
  | cons i rest ih =>
    intro g x y h
    rcases h with hx | hy
    · exact interiorFold_not_row c ly (i :: rest) g x y hx
    · rw [List.foldl_cons, ih _ x y (Or.inr hy),
        interiorRow_not c i ly g x y (Or.inr hy)]

/-- C10: for every integer class index — negative, or at or beyond the
palette length — and every non-empty palette, the palette index
`cls_idx % len(palette)` lies strictly inside the palette (so the lookup
never raises), the call returns a drawn grid (never raises), every pixel
of the 1-pixel border ring carries the border colour, and every pixel of
the 6×6 interior carries `palette[cls_idx % len(palette)]`. -/
theorem C10_draw_pred_class (cls_idx : Int) (palette : List Color)
    (border : Color) (hp : palette ≠ []) :
    (pyMod cls_idx palette.length).toNat < palette.length
    ∧ ∃ c g, palette[(pyMod cls_idx palette.length).toNat]? = some c
        ∧ draw_pred_class cls_idx palette border = some g
        ∧ (∀ x y : Nat, x < 8 → y < 8 →
            (x = 0 ∨ x = 7 ∨ y = 0 ∨ y = 7) → g x y = border)
        ∧ (∀ x y : Nat, 1 ≤ x → x ≤ 6 → 1 ≤ y → y ≤ 6 → g x y = c) := by
  have hlen : 0 < palette.length := List.length_pos.mpr hp
  have hm0 : (palette.length : Int) ≠ 0 := by
    exact_mod_cast hlen.ne'
  have hnn : 0 ≤ pyMod cls_idx palette.length := Int.emod_nonneg cls_idx hm0
  have hlt : pyMod cls_idx palette.length < palette.length :=
    Int.emod_lt_of_pos cls_idx (by exact_mod_cast hlen)
  have hbound : (pyMod cls_idx palette.length).toNat < palette.length := by
    omega
  have hsome : palette[(pyMod cls_idx palette.length).toNat]?
      = some (palette.get ⟨(pyMod cls_idx palette.length).toNat, hbound⟩) := by
    rw [List.getElem?_eq_getElem hbound]
    rfl
  refine ⟨hbound, palette.get ⟨(pyMod cls_idx palette.length).toNat, hbound⟩,
    drawInterior (palette.get ⟨(pyMod cls_idx palette.length).toNat, hbound⟩)
      (drawBorder border clearGrid), hsome, ?_, ?_, ?_⟩
  · simp only [draw_pred_class, if_neg (show ¬palette.length = 0 by omega),
      hsome]
  · intro x y hx hy hring
    have hnot : x ∉ List.range' 1 6 ∨ y ∉ List.range' 1 6 := by
      rcases hring with rfl | rfl | rfl | rfl
      · exact Or.inl (by decide)
      · exact Or.inl (by decide)
      · exact Or.inr (by decide)
      · exact Or.inr (by decide)
    have hmem : (y = 0 ∨ y = 7) ∧ x ∈ List.range 8
        ∨ (x = 0 ∨ x = 7) ∧ y ∈ List.range 8 := by
      rcases hring with rfl | rfl | rfl | rfl
      · exact Or.inr ⟨Or.inl rfl, List.mem_range.mpr hy⟩
      · exact Or.inr ⟨Or.inr rfl, List.mem_range.mpr hy⟩
      · exact Or.inl ⟨Or.inl rfl, List.mem_range.mpr hx⟩
      · exact Or.inl ⟨Or.inr rfl, List.mem_range.mpr hx⟩
    unfold drawInterior drawBorder
    rw [interiorFold_not _ _ _ _ x y hnot]
    exact borderFold_mem border (List.range 8) clearGrid x y hmem
  · intro x y hx1 hx6 hy1 hy6
    unfold drawInterior
    refine interiorFold_mem _ _ _ _ x y ?_ ?_
    · rw [List.mem_range'_1]
      omega
    · rw [List.mem_range'_1]
      omega

/-- Witness for C10 at concrete inputs: the negative class index `-3`
with the ten `CLASS_COLORS` wraps to index 7 (olive) and the call
returns a grid. -/
theorem C10_draw_pred_class_witness :
    (pyMod (-3) (CLASS_COLORS.length : Int)).toNat = 7
    ∧ (draw_pred_class (-3) CLASS_COLORS (255, 255, 255)).isSome = true := by
  have h := C10_draw_pred_class (-3) CLASS_COLORS (255, 255, 255) (by decide)
  obtain ⟨-, c, g, -, hg, -, -⟩ := h
  refine ⟨by decide, ?_⟩
  rw [hg]
  rfl

end Stethopi

